import Mathlib

/-!
# kube-restarter: verification of the registry/staleness core

Shallow embedding of the kube-restarter sources
(pkg/controller/controller.go and pkg/registry) in Lean 4.

Pure string logic (image-reference parsing, tag checks, digest extraction,
WWW-Authenticate challenge parsing, token-URL construction, credential
selection) is translated directly, working on lists of characters so that
every definition is executable and kernel-evaluable.

Effectful operations (HTTP requests, Kubernetes API calls, JSON and base64
decoding from the Go standard library) are modelled as explicit oracle
functions passed in as parameters; where the order or number of calls
matters, an instrumented variant additionally returns the trace of calls
it makes.
-/

set_option autoImplicit false

namespace KubeRestarter

/-! ## Character-list utilities mirroring the Go strings functions used -/

/-- Split at the first occurrence of character c.
Mirrors the two-way split performed by Go strings.SplitN(s, c, 2):
returns none when c does not occur, otherwise the parts strictly before
and strictly after the first occurrence. -/
def splitFirst (c : Char) : List Char → Option (List Char × List Char)
  | [] => none
  | x :: rest =>
    if x = c then some ([], rest)
    else
      match splitFirst c rest with
      | some (b, a) => some (x :: b, a)
      | none => none

/-- Split at the last occurrence of character c.
Mirrors Go strings.LastIndex(s, c) followed by slicing: returns none when
c does not occur, otherwise the parts strictly before and strictly after
the last occurrence. -/
def splitLast (c : Char) : List Char → Option (List Char × List Char)
  | [] => none
  | x :: rest =>
    match splitLast c rest with
    | some (b, a) => some (x :: b, a)
    | none => if x = c then some ([], rest) else none

/-- Split on every occurrence of character c; mirrors Go
strings.Split(s, c) for a one-character separator (the result always has
at least one part, and splitting the empty string yields one empty part). -/
def splitChar (c : Char) : List Char → List (List Char)
  | [] => [[]]
  | x :: rest =>
    let r := splitChar c rest
    if x = c then [] :: r
    else
      match r with
      | [] => [[x]]
      | h :: t => (x :: h) :: t

/-- The suffix of the haystack starting at the first occurrence of the
needle, if any; mirrors Go strings.Index(s, needle) combined with the
slice s[idx:] that the source takes from it. -/
def findSuffixFrom (needle : List Char) : List Char → Option (List Char)
  | [] => if needle.isPrefixOf ([] : List Char) then some [] else none
  | x :: rest =>
    if needle.isPrefixOf (x :: rest) then some (x :: rest)
    else findSuffixFrom needle rest

/-- Go strings.Contains(s, sub). -/
def containsSubstr (s sub : String) : Bool :=
  (findSuffixFrom sub.toList s.toList).isSome

/-- Go strings.TrimPrefix(s, p) at the character-list level. -/
def goTrimStart (l p : List Char) : List Char :=
  if p.isPrefixOf l then l.drop p.length else l

/-- Go strings.TrimSpace(s): drop leading and trailing whitespace. -/
def goTrimSpace (l : List Char) : List Char :=
  ((l.dropWhile Char.isWhitespace).reverse.dropWhile Char.isWhitespace).reverse

/-- Go strings.Trim(s, "\x22"): drop every leading and trailing
double-quote character. -/
def goTrimQuotes (l : List Char) : List Char :=
  ((l.dropWhile (fun ch => ch = '"')).reverse.dropWhile (fun ch => ch = '"')).reverse

/-- Reading from a Go map that was filled by successive assignments:
the last binding for a key wins, a missing key yields the zero value "". -/
def goMapGet (m : List (String × String)) (k : String) : String :=
  match m.reverse.lookup k with
  | some v => v
  | none => ""

/-! ## pkg/registry: parseImageRef (controller.go lines 219-255) -/

/-- The digest-stripping step of parseImageRef: everything before the
first at-sign (Go: ref = ref[:strings.Index(ref, "@")] when present). -/
def stripDigestRef (ref : List Char) : List Char :=
  ref.takeWhile (fun ch => ch ≠ '@')

/-- The tag-extraction step of parseImageRef: locate the last colon; the
text after it becomes the tag only when it contains no slash (otherwise
the colon belonged to a host:port segment); the tag defaults to the
characters of "latest" when no colon qualifies. Returns
(remaining reference, tag). -/
def tagSplit (ref : List Char) : List Char × List Char :=
  match splitLast ':' ref with
  | none => (ref, "latest".toList)
  | some (before, after) =>
    if after.contains '/' then (ref, "latest".toList)
    else (before, after)

/-- parseImageRef splits a Docker image reference into
(registry, repository, tag), translated clause by clause from
pkg/registry (controller.go lines 219-255). -/
def parseImageRef (image : String) : String × String × String :=
  let ref := stripDigestRef image.toList
  let (ref2, tag) := tagSplit ref
  match splitFirst '/' ref2 with
  | none =>
    ("registry-1.docker.io", "library/" ++ String.mk ref2, String.mk tag)
  | some (first, rest) =>
    if first.contains '.' || first.contains ':' || first = "localhost".toList then
      (String.mk first, String.mk rest, String.mk tag)
    else
      ("registry-1.docker.io", String.mk ref2, String.mk tag)

/-! ## pkg/controller: isLatestTag, extractDigest (controller.go lines 105-132) -/

/-- isLatestTag returns true when the image reference carries no at-sign
digest pin and the segment after the last colon is "latest", or there is
no colon at all (Go: strings.Split(image, ":") and comparison of the
last part). -/
def isLatestTag (image : String) : Bool :=
  if image.toList.contains '@' then false
  else
    match splitLast ':' image.toList with
    | none => true
    | some (_, after) => after = "latest".toList

/-- extractDigest pulls the sha256-prefixed digest out of an imageID such
as docker-pullable://nginx@sha256:abc, taking the suffix that starts at
the first occurrence of "sha256:" and returning "" when absent. -/
def extractDigest (imageID : String) : String :=
  match findSuffixFrom "sha256:".toList imageID.toList with
  | some s => String.mk s
  | none => ""

/-! ## Data model: secrets and docker config payloads -/

/-- corev1.SecretTypeDockerConfigJson. -/
def secretTypeDockerConfigJson : String := "kubernetes.io/dockerconfigjson"

/-- A Kubernetes secret as consumed by setAuth: its declared type and the
value of its Data entry under corev1.DockerConfigJsonKey when present
(the only key the source ever reads; the raw bytes are kept as a
string). -/
structure Secret where
  type : String
  data : Option String
deriving DecidableEq

/-- One entry of the auths object of a docker config payload
(dockerAuthEntry in the source). -/
structure DockerAuthEntry where
  auth : String
deriving DecidableEq

/-- The decoded ~/.docker/config.json structure (dockerConfigJSON in the
source); the Go map of auths is modelled as an association list whose
order stands for the map iteration order. -/
structure DockerConfigJSON where
  auths : List (String × DockerAuthEntry)
deriving DecidableEq

/-! ## pkg/registry: setAuth (controller.go lines 266-296)

encoding/json and encoding/base64 are Go standard-library collaborators,
so they enter the embedding as oracle functions: jd decodes a raw
payload into a DockerConfigJSON (none on malformed JSON) and bd decodes
a base64 string (none on malformed base64). setAuth mutates the request
in Go; here it returns the basic-auth credential it would set, none
meaning no credential (anonymous access). The Go loops with continue and
early return are the findSome? pattern. -/

/-- The body of the inner loop of setAuth for one (host, entry) pair:
the host key must contain the registry host as a substring and the entry
must be non-empty; the entry is then base64-decoded and split at its
first colon into user and password; every failure of those steps yields
none (that pair is skipped). -/
def entryAuth (bd : String → Option String) (registryHost : String)
    (host : String) (entry : DockerAuthEntry) : Option (String × String) :=
  if containsSubstr host registryHost = true ∧ entry.auth ≠ "" then
    match bd entry.auth with
    | none => none
    | some decoded =>
      match splitFirst ':' decoded.toList with
      | none => none
      | some (u, p) => some (String.mk u, String.mk p)
  else none

/-- The body of the outer loop of setAuth for one secret: skip it unless
it has the docker-config-json type and a payload that decodes, then take
the first successful (host, entry) pair. -/
def secretAuth (jd : String → Option DockerConfigJSON) (bd : String → Option String)
    (registryHost : String) (s : Secret) : Option (String × String) :=
  if s.type ≠ secretTypeDockerConfigJson then none
  else
    match s.data with
    | none => none
    | some d =>
      match jd d with
      | none => none
      | some cfg => cfg.auths.findSome? (fun he => entryAuth bd registryHost he.1 he.2)

/-- setAuth: first successful credential across the pull secrets, none
when nothing matches. -/
def setAuth (jd : String → Option DockerConfigJSON) (bd : String → Option String)
    (registryHost : String) (pullSecrets : List Secret) : Option (String × String) :=
  pullSecrets.findSome? (secretAuth jd bd registryHost)

/-! ## pkg/registry: parseWWWAuth, fetchBearerToken (controller.go lines 298-368) -/

/-- parseWWWAuth parses a Www-Authenticate header: strip a leading
"Bearer " then "bearer " prefix, split on every comma, trim whitespace,
keep only parts containing an equals sign, and bind the text before the
first equals sign to the text after it with surrounding double quotes
trimmed. The resulting association list, read through goMapGet, is the
Go map the source builds. -/
def parseWWWAuth (header : String) : List (String × String) :=
  let h := goTrimStart header.toList "Bearer ".toList
  let h := goTrimStart h "bearer ".toList
  (splitChar ',' h).filterMap (fun part =>
    let part := goTrimSpace part
    match splitFirst '=' part with
    | none => none
    | some (k, v) => some (String.mk k, String.mk (goTrimQuotes v)))

/-- The token-URL construction inside fetchBearerToken: append service
and scope as query parameters only when present, in that order, using a
question mark for the first parameter and an ampersand thereafter; the
values are concatenated verbatim. -/
def buildTokenURL (realm service scope : String) : String :=
  if scope ≠ "" then
    (if service ≠ "" then realm ++ "?" ++ "service=" ++ service else realm) ++
      (if service ≠ "" then "&" else "?") ++ "scope=" ++ scope
  else
    if service ≠ "" then realm ++ "?" ++ "service=" ++ service else realm

/-- A token-endpoint request: its URL and the basic-auth credential
attached by setAuth, if any. -/
structure TokenRequest where
  url : String
  basicAuth : Option (String × String)
deriving DecidableEq

/-- The decoded JSON body of a token response (the anonymous struct in
fetchBearerToken with fields token and access_token). -/
structure TokenResponse where
  token : String
  accessToken : String
deriving DecidableEq

/-- fetchBearerToken: parse the challenge, fail without a realm, build
the token URL, issue a GET with the credential resolved by setAuth for
the original registry host, and accept the token field first, the
access_token field second. The HTTP round trip plus body read plus JSON
unmarshal is the oracle doTok; its error covers the transport, read and
parse failures the source propagates. -/
def fetchBearerToken (doTok : TokenRequest → Except String TokenResponse)
    (jd : String → Option DockerConfigJSON) (bd : String → Option String)
    (wwwAuth registryHost : String) (pullSecrets : List Secret) : Except String String :=
  let params := parseWWWAuth wwwAuth
  let realm := goMapGet params "realm"
  if realm = "" then .error ("no realm in Www-Authenticate header: " ++ wwwAuth)
  else
    let tokenURL := buildTokenURL realm (goMapGet params "service") (goMapGet params "scope")
    match doTok { url := tokenURL, basicAuth := setAuth jd bd registryHost pullSecrets } with
    | .error e => .error e
    | .ok tr =>
      if tr.token ≠ "" then .ok tr.token
      else if tr.accessToken ≠ "" then .ok tr.accessToken
      else .error ("no token in response from " ++ tokenURL)

/-! ## pkg/registry: GetRemoteDigest (controller.go lines 161-217) -/

/-- The constant Accept header both manifest requests set. -/
def acceptHeader : String :=
  "application/vnd.docker.distribution.manifest.v2+json, application/vnd.oci.image.manifest.v1+json, application/vnd.oci.image.index.v1+json, application/vnd.docker.distribution.manifest.list.v2+json"

/-- A HEAD request to the manifest endpoint: URL, Accept header,
optional basic-auth credential, optional Authorization header value. -/
structure ManifestRequest where
  url : String
  accept : String
  basicAuth : Option (String × String)
  authorization : Option String
deriving DecidableEq

/-- The response to a manifest HEAD request: status code plus the two
headers the source reads. A HEAD response has no body, so none is
modelled. -/
structure HttpResponse where
  statusCode : Nat
  wwwAuthenticate : String
  dockerContentDigest : String
deriving DecidableEq

/-- The manifest URL built by GetRemoteDigest. -/
def manifestURL (image : String) : String :=
  let (reg, repo, tag) := parseImageRef image
  "https://" ++ reg ++ "/v2/" ++ repo ++ "/manifests/" ++ tag

/-- The first, possibly anonymous manifest request, with the basic-auth
credential that setAuth attaches. -/
def firstManifestRequest (jd : String → Option DockerConfigJSON) (bd : String → Option String)
    (image : String) (pullSecrets : List Secret) : ManifestRequest :=
  { url := manifestURL image
    accept := acceptHeader
    basicAuth := setAuth jd bd (parseImageRef image).1 pullSecrets
    authorization := none }

/-- The re-issued manifest request after a 401: a fresh request with the
same URL and Accept header and a Bearer Authorization header (the source
does not call setAuth again on it). -/
def retryManifestRequest (image token : String) : ManifestRequest :=
  { url := manifestURL image
    accept := acceptHeader
    basicAuth := none
    authorization := some ("Bearer " ++ token) }

/-- The final-response handling shared by both paths of GetRemoteDigest:
any status other than 200 is an error carrying the status and URL; a 200
response without a Docker-Content-Digest header is an error; otherwise
the header value is the result. -/
def finishResp (url : String) (resp : HttpResponse) : Except String String :=
  if resp.statusCode ≠ 200 then
    .error ("unexpected status " ++ toString resp.statusCode ++ " from " ++ url)
  else if resp.dockerContentDigest = "" then
    .error ("no Docker-Content-Digest header in response from " ++ url)
  else .ok resp.dockerContentDigest

/-- GetRemoteDigest, instrumented: alongside the result it returns the
trace of manifest HEAD requests issued, in order. doReq is the HTTP
transport (error = transport failure); fetchTok stands for the
fetchBearerToken call on the Www-Authenticate header of the first
response (registry host and pull secrets are already fixed by the
caller). Exactly the first response being 401 triggers the single token
exchange and re-issue; every other path finishes on the response at
hand. -/
def GetRemoteDigestT (doReq : ManifestRequest → Except String HttpResponse)
    (fetchTok : String → Except String String)
    (jd : String → Option DockerConfigJSON) (bd : String → Option String)
    (image : String) (pullSecrets : List Secret) :
    Except String String × List ManifestRequest :=
  match doReq (firstManifestRequest jd bd image pullSecrets) with
  | .error e =>
    (.error ("HEAD " ++ manifestURL image ++ ": " ++ e),
     [firstManifestRequest jd bd image pullSecrets])
  | .ok resp =>
    if resp.statusCode = 401 then
      match fetchTok resp.wwwAuthenticate with
      | .error e =>
        (.error ("fetching bearer token: " ++ e),
         [firstManifestRequest jd bd image pullSecrets])
      | .ok token =>
        match doReq (retryManifestRequest image token) with
        | .error e =>
          (.error ("HEAD (authed) " ++ manifestURL image ++ ": " ++ e),
           [firstManifestRequest jd bd image pullSecrets, retryManifestRequest image token])
        | .ok resp2 =>
          (finishResp (manifestURL image) resp2,
           [firstManifestRequest jd bd image pullSecrets, retryManifestRequest image token])
    else
      (finishResp (manifestURL image) resp,
       [firstManifestRequest jd bd image pullSecrets])

/-- GetRemoteDigest proper: the result component of the instrumented
version. -/
def GetRemoteDigest (doReq : ManifestRequest → Except String HttpResponse)
    (fetchTok : String → Except String String)
    (jd : String → Option DockerConfigJSON) (bd : String → Option String)
    (image : String) (pullSecrets : List Secret) : Except String String :=
  (GetRemoteDigestT doReq fetchTok jd bd image pullSecrets).1

/-! ## Data model: pods and deployments -/

/-- corev1.PullAlways. -/
def pullAlways : String := "Always"

/-- corev1.PodRunning. -/
def podRunning : String := "Running"

/-- The deployment opt-in annotation key in controller.go. -/
def enabledKey : String := "kube-restarter.io/enabled"

/-- A container of a pod spec: the fields shouldDeletePod reads. -/
structure Container where
  name : String
  image : String
  imagePullPolicy : String
deriving DecidableEq

/-- A container status entry: the field shouldDeletePod reads. -/
structure ContainerStatus where
  imageID : String
deriving DecidableEq

/-- A pod: namespace and name, spec containers, the names of the
imagePullSecrets references, observed phase and container statuses. -/
structure Pod where
  ns : String
  name : String
  containers : List Container
  imagePullSecrets : List String
  phase : String
  containerStatuses : List ContainerStatus
deriving DecidableEq

/-- A deployment: namespace and name, annotations (a Go map modelled as
an association list read through goMapGet), and its pod label selector
kept opaque (only handed to the selector-parsing oracle). -/
structure Deployment where
  ns : String
  name : String
  annotations : List (String × String)
  selector : String
deriving DecidableEq

/-! ## pkg/controller: shouldDeletePod (controller.go lines 70-103)

registry.GetRemoteDigest is an HTTP operation, so at the controller
level it is the oracle fetch, taking the container image and the pull
secrets and returning the remote digest or an error. -/

/-- The body of the shouldDeletePod loop for the container at index i:
skip (false) unless the pull policy is Always and the image passes
isLatestTag; then perform the remote digest lookup, skipping on error;
skip when i is out of range of the status array (statuses[i]? = none is
exactly the i >= len(statuses) guard of the source); skip when the
extracted running digest is empty; the container is stale exactly when
the remote and running digests differ. -/
def containerStale (fetch : String → List Secret → Except String String)
    (pullSecrets : List Secret) (statuses : List ContainerStatus)
    (i : Nat) (c : Container) : Bool :=
  if c.imagePullPolicy ≠ pullAlways then false
  else if ¬ isLatestTag c.image then false
  else
    match fetch c.image pullSecrets with
    | .error _ => false
    | .ok remoteDigest =>
      match statuses[i]? with
      | none => false
      | some st =>
        if extractDigest st.imageID = "" then false
        else decide (remoteDigest ≠ extractDigest st.imageID)

/-- The body of the shouldDeletePod loop for the container at index i,
instrumented with the list of images for which the remote digest lookup
(registry.GetRemoteDigest) is actually invoked. The lookup happens after
the policy and tag guards and before the status index guard, exactly as
in the source. -/
def containerStaleT (fetch : String → List Secret → Except String String)
    (pullSecrets : List Secret) (statuses : List ContainerStatus)
    (i : Nat) (c : Container) : Bool × List String :=
  if c.imagePullPolicy ≠ pullAlways then (false, [])
  else if ¬ isLatestTag c.image then (false, [])
  else
    match fetch c.image pullSecrets with
    | .error _ => (false, [c.image])
    | .ok remoteDigest =>
      match statuses[i]? with
      | none => (false, [c.image])
      | some st =>
        if extractDigest st.imageID = "" then (false, [c.image])
        else (decide (remoteDigest ≠ extractDigest st.imageID), [c.image])

/-- The shouldDeletePod loop over the containers, carrying the index:
true as soon as one container is stale, false when the list is
exhausted. -/
def shouldDeleteAux (fetch : String → List Secret → Except String String)
    (pullSecrets : List Secret) (statuses : List ContainerStatus) :
    Nat → List Container → Bool
  | _, [] => false
  | i, c :: rest =>
    containerStale fetch pullSecrets statuses i c
      || shouldDeleteAux fetch pullSecrets statuses (i + 1) rest

/-- shouldDeletePod checks each container of the pod, by position
against the container-status array, for a stale image. -/
def shouldDeletePod (fetch : String → List Secret → Except String String)
    (pod : Pod) (pullSecrets : List Secret) : Bool :=
  shouldDeleteAux fetch pullSecrets pod.containerStatuses 0 pod.containers

/-! ## pkg/controller: Reconcile (controller.go lines 18-68)

The Kubernetes client is the oracle record K8sApi; deletions are the
observable effects of a pass, so processing returns the list of deletion
attempts with their outcomes. -/

/-- The Kubernetes API surface Reconcile consumes: list deployments in a
namespace scope, parse a selector, list pods for a namespace and
selector string, get a named secret, delete a named pod. -/
structure K8sApi where
  listDeployments : String → Except String (List Deployment)
  parseSelector : String → Except String String
  listPods : String → String → Except String (List Pod)
  getSecret : String → String → Except String Secret
  deletePod : String → String → Except String Unit

/-- A deletion attempt recorded by a pass. -/
inductive Action where
  | deleted (ns name : String)
  | deleteFailed (ns name : String) (err : String)
deriving DecidableEq

/-- gatherPullSecrets reads the imagePullSecrets referenced by a pod,
skipping (with a warning in the source) every reference whose secret
cannot be fetched. -/
def gatherPullSecrets (api : K8sApi) (pod : Pod) : List Secret :=
  pod.imagePullSecrets.filterMap (fun ref => (api.getSecret pod.ns ref).toOption)

/-- The per-pod step of Reconcile: ignore pods not in the Running phase;
delete a pod found stale, recording success or failure of the deletion
call (a failed deletion is logged and does not abort the pass). -/
def processPod (fetch : String → List Secret → Except String String)
    (api : K8sApi) (pullSecrets : List Secret) (pod : Pod) : List Action :=
  if pod.phase ≠ podRunning then []
  else if shouldDeletePod fetch pod pullSecrets then
    match api.deletePod pod.ns pod.name with
    | .ok _ => [Action.deleted pod.ns pod.name]
    | .error e => [Action.deleteFailed pod.ns pod.name e]
  else []

/-- The per-deployment step of Reconcile: parse the selector and list the
matching pods, each failure skipping just this deployment; gather the
pull secrets from the first pod; then process every pod. -/
def processDeployment (fetch : String → List Secret → Except String String)
    (api : K8sApi) (d : Deployment) : List Action :=
  match api.parseSelector d.selector with
  | .error _ => []
  | .ok sel =>
    match api.listPods d.ns sel with
    | .error _ => []
    | .ok pods =>
      let pullSecrets :=
        match pods with
        | [] => []
        | p :: _ => gatherPullSecrets api p
      pods.flatMap (processPod fetch api pullSecrets)

/-- The actions of one pass over an already-listed set of deployments:
keep those whose opt-in annotation is exactly "true" and process each. -/
def workloadActions (fetch : String → List Secret → Except String String)
    (api : K8sApi) (ds : List Deployment) : List Action :=
  (ds.filter (fun d => goMapGet d.annotations enabledKey = "true")).flatMap
    (processDeployment fetch api)

/-- Reconcile: list the deployments in scope, the only failure it
propagates; otherwise process every annotated deployment and report the
deletion attempts of the pass. -/
def Reconcile (fetch : String → List Secret → Except String String)
    (api : K8sApi) (ns : String) : Except String (List Action) :=
  match api.listDeployments ns with
  | .error e => .error ("listing deployments: " ++ e)
  | .ok ds => .ok (workloadActions fetch api ds)

/-! ## Concrete fixtures used to instantiate the theorems -/

/-- A registry oracle that always reports the digest sha256:bbb. -/
def fetchConstBBB : String → List Secret → Except String String :=
  fun _ _ => Except.ok "sha256:bbb"

/-- A registry oracle that always fails (unreachable registry). -/
def fetchDown : String → List Secret → Except String String :=
  fun _ _ => Except.error "registry unreachable"

/-- A container tracking nginx latest with pull policy Always. -/
def nginxAlways : Container :=
  { name := "web", image := "nginx", imagePullPolicy := pullAlways }

/-- A running pod whose single container runs digest sha256:aaa. -/
def podAAA : Pod :=
  { ns := "default"
    name := "web-1"
    containers := [nginxAlways]
    imagePullSecrets := []
    phase := podRunning
    containerStatuses := [{ imageID := "docker-pullable://nginx@sha256:aaa" }] }

/-- A 200 response carrying digest sha256:bbb. -/
def respOK : HttpResponse :=
  { statusCode := 200, wwwAuthenticate := "", dockerContentDigest := "sha256:bbb" }

/-- A 401 response carrying a bearer challenge. -/
def resp401 : HttpResponse :=
  { statusCode := 401
    wwwAuthenticate := "Bearer realm=\"https://auth.example/token\",service=\"registry.example\""
    dockerContentDigest := "" }

/-- A transport that answers the anonymous request with 401 and the
authorized retry with 200. -/
def doReqAuthFlow : ManifestRequest → Except String HttpResponse :=
  fun req => if req.authorization = none then Except.ok resp401 else Except.ok respOK

/-- A token exchange that always yields the token tkn. -/
def fetchTokOK : String → Except String String := fun _ => Except.ok "tkn"

/-- A JSON decoder that rejects every payload. -/
def jdNone : String → Option DockerConfigJSON := fun _ => none

/-- A base64 decoder that rejects every payload. -/
def bdNone : String → Option String := fun _ => none

/-- A JSON decoder knowing one payload with one auths entry. -/
def jdFixed : String → Option DockerConfigJSON :=
  fun s =>
    if s = "cfgGood" then
      some { auths := [("https://registry.example/v1", { auth := "b64good" })] }
    else none

/-- A base64 decoder knowing one credential pair. -/
def bdFixed : String → Option String :=
  fun s => if s = "b64good" then some "user:pass" else none

/-- A secret of the wrong type holding a decodable payload. -/
def secretWrongType : Secret := { type := "Opaque", data := some "cfgGood" }

/-- A docker-config-json secret holding the decodable payload. -/
def secretGood : Secret := { type := secretTypeDockerConfigJson, data := some "cfgGood" }

/-- An enabled deployment whose selector does not parse. -/
def dBad : Deployment :=
  { ns := "default", name := "bad", annotations := [(enabledKey, "true")], selector := "selBad" }

/-- An enabled deployment with a working selector. -/
def dGood : Deployment :=
  { ns := "default", name := "good", annotations := [(enabledKey, "true")], selector := "selGood" }

/-- A cluster with the bad-selector deployment listed before the good
one; pods resolve only for the good selector. -/
def api1 : K8sApi :=
  { listDeployments := fun _ => Except.ok [dBad, dGood]
    parseSelector := fun s => if s = "selBad" then Except.error "bad selector" else Except.ok s
    listPods := fun _ sel => if sel = "selGood" then Except.ok [podAAA] else Except.error "no pods"
    getSecret := fun _ _ => Except.error "not found"
    deletePod := fun _ _ => Except.ok () }

/-! ## Helper lemmas -/

/-- splitLast finds no occurrence exactly when the character is absent. -/
theorem splitLast_eq_none_iff (c : Char) :
    ∀ l : List Char, splitLast c l = none ↔ c ∉ l := by
  intro l
  induction l with
  | nil => simp [splitLast]
  | cons x rest ih =>
    rcases h : splitLast c rest with _ | ⟨b, a⟩
    · have hmem : c ∉ rest := (ih.mp h)
      by_cases hx : x = c
      · simp [splitLast, h, hx]
      · simp [splitLast, h, hx, hmem]
        intro hcx
        exact hx hcx.symm
    · have hmem : c ∈ rest := by
        by_contra hc
        rw [← ih] at hc
        simp [h] at hc
      simp [splitLast, h, hmem]

/-- splitLast decomposes the list at the last occurrence: the part after
the split point contains no further occurrence. -/
theorem splitLast_eq_some (c : Char) :
    ∀ (l b a : List Char), splitLast c l = some (b, a) →
      l = b ++ c :: a ∧ c ∉ a := by
  intro l
  induction l with
  | nil => intro b a h; simp [splitLast] at h
  | cons x rest ih =>
    intro b a h
    rcases h2 : splitLast c rest with _ | ⟨b2, a2⟩
    · rw [splitLast, h2] at h
      by_cases hx : x = c
      · rw [if_pos hx] at h
        injection h with h3
        rw [Prod.mk.injEq] at h3
        obtain ⟨hb, ha⟩ := h3
        subst hb; subst ha
        exact ⟨by simp [hx], (splitLast_eq_none_iff c rest).mp h2⟩
      · rw [if_neg hx] at h
        exact absurd h (by simp)
    · rw [splitLast, h2] at h
      injection h with h3
      rw [Prod.mk.injEq] at h3
      obtain ⟨hb, ha⟩ := h3
      subst hb; subst ha
      obtain ⟨hrest, hnotin⟩ := ih b2 a2 h2
      exact ⟨by rw [hrest]; rfl, hnotin⟩

/-- splitLast on a list ending with the split character splits exactly
before that final character. -/
theorem splitLast_concat (c : Char) :
    ∀ b : List Char, splitLast c (b ++ [c]) = some (b, []) := by
  intro b
  induction b with
  | nil => simp [splitLast]
  | cons x rest ih => simp [splitLast, ih]

/-- Strings built by String.mk are empty exactly when the character list
is empty. -/
theorem mk_eq_empty_iff (a : List Char) : String.mk a = "" ↔ a = [] := by
  constructor
  · intro h
    have h2 : (String.mk a).data = ("" : String).data := by rw [h]
    simpa using h2
  · intro h
    rw [h]

/-- tagSplit defaults the tag when there is no colon. -/
theorem tagSplit_of_no_colon (ref : List Char) (h : splitLast ':' ref = none) :
    tagSplit ref = (ref, "latest".toList) := by
  rw [tagSplit, h]

/-- tagSplit defaults the tag when the text after the last colon carries
a slash. -/
theorem tagSplit_of_slash (ref b a : List Char)
    (h : splitLast ':' ref = some (b, a)) (hs : '/' ∈ a) :
    tagSplit ref = (ref, "latest".toList) := by
  rw [tagSplit, h]
  simp [hs]

/-- tagSplit takes the text after the last colon as the tag when it
carries no slash. -/
theorem tagSplit_of_no_slash (ref b a : List Char)
    (h : splitLast ':' ref = some (b, a)) (hs : '/' ∉ a) :
    tagSplit ref = (b, a) := by
  rw [tagSplit, h]
  simp [hs]

/-- The tag component of parseImageRef is exactly the tag component of
the tagSplit step on the digest-stripped input. -/
theorem parseImageRef_tag_eq (s : String) :
    (parseImageRef s).2.2 = String.mk (tagSplit (stripDigestRef s.toList)).2 := by
  unfold parseImageRef
  rcases h : tagSplit (stripDigestRef s.toList) with ⟨ref2, tag⟩
  simp only [h]
  rcases h2 : splitFirst '/' ref2 with _ | ⟨first, rest⟩
  · simp
  · simp only []
    split <;> rfl

/-- findSome? returns some value exactly when some element at position i
maps to it while every earlier element maps to none: the first success
wins. -/
theorem findSome?_eq_some_iff_first {α β : Type} (f : α → Option β) :
    ∀ (l : List α) (b : β),
      l.findSome? f = some b ↔
        ∃ (i : Nat) (a : α), l[i]? = some a ∧ f a = some b ∧
          ∀ (j : Nat) (a2 : α), j < i → l[j]? = some a2 → f a2 = none := by
  intro l
  induction l with
  | nil => intro b; simp
  | cons x rest ih =>
    intro b
    rw [List.findSome?_cons]
    cases hf : f x with
    | some v =>
      simp only []
      constructor
      · intro h
        refine ⟨0, x, by simp, by rw [hf]; exact h, ?_⟩
        intro j a2 hj _
        exact absurd hj (by omega)
      · rintro ⟨i, a, hi, hfa, hmin⟩
        cases i with
        | zero =>
          simp only [List.getElem?_cons_zero, Option.some.injEq] at hi
          subst hi
          rw [hf] at hfa
          exact hfa
        | succ i =>
          have h0 : f x = none := hmin 0 x (by omega) (by simp)
          rw [hf] at h0
          exact absurd h0 (by simp)
    | none =>
      simp only []
      constructor
      · intro h
        obtain ⟨i, a, hi, hfa, hmin⟩ := (ih b).mp h
        refine ⟨i + 1, a, by simpa using hi, hfa, ?_⟩
        intro j a2 hj hja
        cases j with
        | zero =>
          simp only [List.getElem?_cons_zero, Option.some.injEq] at hja
          subst hja
          exact hf
        | succ j =>
          exact hmin j a2 (by omega) (by simpa using hja)
      · rintro ⟨i, a, hi, hfa, hmin⟩
        cases i with
        | zero =>
          simp only [List.getElem?_cons_zero, Option.some.injEq] at hi
          subst hi
          rw [hf] at hfa
          exact absurd hfa (by simp)
        | succ i =>
          refine (ih b).mpr ⟨i, a, by simpa using hi, hfa, ?_⟩
          intro j a2 hj hja
          exact hmin (j + 1) a2 (by omega) (by simpa using hja)

/-- The per-container staleness boolean is true exactly under the
conjunction of all the guards of the shouldDeletePod loop body. -/
theorem containerStale_eq_true_iff
    (fetch : String → List Secret → Except String String)
    (ps : List Secret) (sts : List ContainerStatus) (i : Nat) (c : Container) :
    containerStale fetch ps sts i c = true ↔
      (c.imagePullPolicy = pullAlways ∧ isLatestTag c.image = true ∧
        ∃ remote, fetch c.image ps = Except.ok remote ∧
          ∃ st, sts[i]? = some st ∧ extractDigest st.imageID ≠ "" ∧
            remote ≠ extractDigest st.imageID) := by
  unfold containerStale
  by_cases h1 : c.imagePullPolicy = pullAlways
  · rw [if_neg (by simp [h1])]
    by_cases h2 : isLatestTag c.image = true
    · rw [if_neg (by simp [h2])]
      cases hf : fetch c.image ps with
      | error e => simp [h1, h2, hf]
      | ok remote =>
        cases hs : sts[i]? with
        | none => simp [h1, h2, hf, hs]
        | some st =>
          by_cases h4 : extractDigest st.imageID = ""
          · simp [h1, h2, hf, hs, h4]
          · simp [h1, h2, hf, hs, h4]
    · rw [if_pos (by simp [h2])]
      simp [h2]
  · rw [if_pos (by simp [h1])]
    simp [h1]

/-- The shouldDeletePod loop from index k returns true exactly when some
container at relative position j is stale at absolute index k + j. -/
theorem shouldDeleteAux_eq_true_iff
    (fetch : String → List Secret → Except String String)
    (ps : List Secret) (sts : List ContainerStatus) :
    ∀ (cs : List Container) (k : Nat),
      shouldDeleteAux fetch ps sts k cs = true ↔
        ∃ j c, cs[j]? = some c ∧ containerStale fetch ps sts (k + j) c = true := by
  intro cs
  induction cs with
  | nil => intro k; simp [shouldDeleteAux]
  | cons c rest ih =>
    intro k
    rw [shouldDeleteAux, Bool.or_eq_true]
    constructor
    · rintro (h | h)
      · exact ⟨0, c, by simp, by simpa using h⟩
      · obtain ⟨j, c2, hj, hc⟩ := (ih (k + 1)).mp h
        refine ⟨j + 1, c2, by simpa using hj, ?_⟩
        rwa [show k + 1 + j = k + (j + 1) by omega] at hc
    · rintro ⟨j, c2, hj, hc⟩
      cases j with
      | zero =>
        left
        simp only [List.getElem?_cons_zero, Option.some.injEq] at hj
        subst hj
        simpa using hc
      | succ j =>
        right
        refine (ih (k + 1)).mpr ⟨j, c2, by simpa using hj, ?_⟩
        rwa [show k + (j + 1) = k + 1 + j by omega] at hc

/-- workloadActions distributes over concatenation of deployment lists:
each deployment contributes independently. -/
theorem workloadActions_append
    (fetch : String → List Secret → Except String String) (api : K8sApi)
    (l1 l2 : List Deployment) :
    workloadActions fetch api (l1 ++ l2) =
      workloadActions fetch api l1 ++ workloadActions fetch api l2 := by
  unfold workloadActions
  rw [List.filter_append, List.flatMap_append]

/-- A deployment contributing no actions drops out of workloadActions. -/
theorem workloadActions_cons_of_empty
    (fetch : String → List Secret → Except String String) (api : K8sApi)
    (d : Deployment) (l : List Deployment)
    (h : processDeployment fetch api d = []) :
    workloadActions fetch api (d :: l) = workloadActions fetch api l := by
  unfold workloadActions
  rw [List.filter_cons]
  by_cases he : goMapGet d.annotations enabledKey = "true"
  · simp [he, h]
  · simp [he]

/-- A selector that fails to parse yields no actions for its
deployment. -/
theorem processDeployment_of_selector_error
    (fetch : String → List Secret → Except String String) (api : K8sApi)
    (d : Deployment) (e : String) (h : api.parseSelector d.selector = Except.error e) :
    processDeployment fetch api d = [] := by
  unfold processDeployment
  rw [h]

/-- A pod listing that fails yields no actions for its deployment. -/
theorem processDeployment_of_listPods_error
    (fetch : String → List Secret → Except String String) (api : K8sApi)
    (d : Deployment) (sel e : String)
    (h1 : api.parseSelector d.selector = Except.ok sel)
    (h2 : api.listPods d.ns sel = Except.error e) :
    processDeployment fetch api d = [] := by
  unfold processDeployment
  rw [h1]
  simp only [h2]

/-! ## Claim theorems -/

/-- C3: parseImageRef maps the five concrete references of the spec
table to exactly the expected (registry, repository, tag) triples; in
particular localhost:5000/app parses to host localhost:5000 with tag
latest, not tag 5000/app. -/
theorem C3_parseImageRef_table :
    parseImageRef "nginx" = ("registry-1.docker.io", "library/nginx", "latest")
    ∧ parseImageRef "nginx:1.25" = ("registry-1.docker.io", "library/nginx", "1.25")
    ∧ parseImageRef "myuser/myimage" = ("registry-1.docker.io", "myuser/myimage", "latest")
    ∧ parseImageRef "ghcr.io/org/app:v2" = ("ghcr.io", "org/app", "v2")
    ∧ parseImageRef "localhost:5000/app" = ("localhost:5000", "app", "latest")
    ∧ (parseImageRef "localhost:5000/app").2.2 ≠ "5000/app" := by
  refine ⟨by decide, by decide, by decide, by decide, by decide, by decide⟩

/-- C5: parseImageRef is a total function: for every input string it
yields a (registry, repository, tag) triple, and on the edge inputs the
claim names (the empty string and a string consisting only of a tag) it
returns concrete triples; being a Lean function over pure list
operations, it performs no I/O and cannot panic. -/
theorem C5_parseImageRef_total :
    (∀ s : String, ∃ registry repo tag : String,
        parseImageRef s = (registry, repo, tag))
    ∧ parseImageRef "" = ("registry-1.docker.io", "library/", "latest")
    ∧ parseImageRef ":latest" = ("registry-1.docker.io", "library/", "latest") := by
  refine ⟨fun s => ?_, by decide, by decide⟩
  exact ⟨(parseImageRef s).1, (parseImageRef s).2.1, (parseImageRef s).2.2, rfl⟩

/-- C4 counterexample: the input with a bare trailing colon yields the
empty tag, not the tag latest, so the returned tag component is not
always non-empty. -/
theorem C4_counterexample :
    (parseImageRef "nginx:").2.2 = "" ∧ (parseImageRef "nginx:").2.2 ≠ "latest" := by
  refine ⟨by decide, by decide⟩

/-- C4 (amended): the tag returned by parseImageRef is latest whenever
the digest-stripped input contains no colon, or the text after its last
colon contains a slash; otherwise the tag is exactly the text after the
last colon — hence the tag is non-empty for every input whose
digest-stripped form does not end in a colon, while an input ending in a
bare colon yields the empty tag. -/
theorem C4_tag_characterization (s : String) :
    (':' ∉ stripDigestRef s.toList → (parseImageRef s).2.2 = "latest")
    ∧ (∀ b a, splitLast ':' (stripDigestRef s.toList) = some (b, a) →
        '/' ∈ a → (parseImageRef s).2.2 = "latest")
    ∧ (∀ b a, splitLast ':' (stripDigestRef s.toList) = some (b, a) →
        '/' ∉ a → (parseImageRef s).2.2 = String.mk a)
    ∧ ((¬ ∃ b, stripDigestRef s.toList = b ++ [':']) → (parseImageRef s).2.2 ≠ "")
    ∧ (∀ b, stripDigestRef s.toList = b ++ [':'] → (parseImageRef s).2.2 = "") := by
  simp only [parseImageRef_tag_eq]
  refine ⟨?_, ?_, ?_, ?_, ?_⟩
  · intro h
    rw [tagSplit_of_no_colon _ ((splitLast_eq_none_iff ':' _).mpr h)]
    exact rfl
  · intro b a h hs
    rw [tagSplit_of_slash _ b a h hs]
    exact rfl
  · intro b a h hs
    rw [tagSplit_of_no_slash _ b a h hs]
  · intro h
    rcases h2 : splitLast ':' (stripDigestRef s.toList) with _ | ⟨b, a⟩
    · rw [tagSplit_of_no_colon _ h2]
      intro hcon
      exact absurd ((mk_eq_empty_iff _).mp hcon)
        (show ("latest".toList : List Char) ≠ [] by decide)
    · by_cases hs : '/' ∈ a
      · rw [tagSplit_of_slash _ b a h2 hs]
        intro hcon
        exact absurd ((mk_eq_empty_iff _).mp hcon)
          (show ("latest".toList : List Char) ≠ [] by decide)
      · rw [tagSplit_of_no_slash _ b a h2 hs]
        intro hcon
        have ha : a = [] := (mk_eq_empty_iff _).mp hcon
        subst ha
        obtain ⟨hl, _⟩ := splitLast_eq_some ':' _ b [] h2
        exact h ⟨b, hl⟩
  · intro b h
    rw [h, tagSplit_of_no_slash _ b [] (splitLast_concat ':' b) (by simp)]

/-- C4 witness: the characterization applied to the bare-colon input
nginx: yields the empty tag. -/
theorem C4_witness : (parseImageRef "nginx:").2.2 = "" :=
  (C4_tag_characterization "nginx:").2.2.2.2 "nginx".toList (by decide)

/-- C2 (code bug): the untagged reference localhost:5000/app with a
port-carrying registry host is rejected by isLatestTag — the naive colon
split treats 5000/app as its tag — even though parseImageRef in the same
code base assigns it the default tag latest; consequently a container
with pull policy Always and that image is never applicable and no remote
digest lookup is performed for it. -/
theorem C2_portHost_not_applicable :
    isLatestTag "localhost:5000/app" = false
    ∧ (parseImageRef "localhost:5000/app").2.2 = "latest"
    ∧ (∀ (fetch : String → List Secret → Except String String)
        (ps : List Secret) (sts : List ContainerStatus) (i : Nat) (nm : String),
        containerStaleT fetch ps sts i
          { name := nm, image := "localhost:5000/app", imagePullPolicy := pullAlways }
          = (false, [])) := by
  refine ⟨by decide, by decide, ?_⟩
  intro fetch ps sts i nm
  have h : isLatestTag "localhost:5000/app" = false := by decide
  simp [containerStaleT, h]

/-- C1: shouldDeletePod returns true exactly when some container, by
positional index, has pull policy Always, passes the latest-or-untagged
check, has a successful remote digest lookup, has a status entry at its
index, and has a non-empty extracted running digest that differs from
the remote digest as an exact string comparison; in particular a failed
remote lookup or a missing digest leaves every container not stale. -/
theorem C1_shouldDeletePod_iff
    (fetch : String → List Secret → Except String String)
    (ps : List Secret) (pod : Pod) :
    shouldDeletePod fetch pod ps = true ↔
      ∃ (i : Nat) (c : Container), pod.containers[i]? = some c ∧
        (c.imagePullPolicy = pullAlways ∧ isLatestTag c.image = true ∧
          ∃ remote : String, fetch c.image ps = Except.ok remote ∧
            ∃ st : ContainerStatus, pod.containerStatuses[i]? = some st ∧
              extractDigest st.imageID ≠ "" ∧
              remote ≠ extractDigest st.imageID) := by
  unfold shouldDeletePod
  rw [shouldDeleteAux_eq_true_iff]
  constructor
  · rintro ⟨j, c, hj, hc⟩
    refine ⟨j, c, hj, ?_⟩
    have h2 := (containerStale_eq_true_iff fetch ps pod.containerStatuses (0 + j) c).mp hc
    simpa using h2
  · rintro ⟨j, c, hj, hc⟩
    refine ⟨j, c, hj, ?_⟩
    rw [containerStale_eq_true_iff]
    simpa using hc

/-- C1 witness: a pod whose one Always-pull latest container runs digest
sha256:aaa while the registry reports sha256:bbb is deleted. -/
theorem C1_witness : shouldDeletePod fetchConstBBB podAAA [] = true := by
  refine (C1_shouldDeletePod_iff fetchConstBBB [] podAAA).mpr ?_
  refine ⟨0, nginxAlways, by decide, by decide, by decide, "sha256:bbb", rfl, ?_⟩
  exact ⟨{ imageID := "docker-pullable://nginx@sha256:aaa" }, by decide, by decide, by decide⟩

/-- C9: a container that passes the applicability guards but whose index
has no entry in the container-status array still triggers the remote
digest lookup before being skipped: the instrumented per-container step
records the lookup in its trace and yields not stale, whatever the
lookup returns. -/
theorem C9_lookup_despite_missing_status
    (fetch : String → List Secret → Except String String)
    (ps : List Secret) (sts : List ContainerStatus) (i : Nat) (c : Container)
    (h1 : c.imagePullPolicy = pullAlways) (h2 : isLatestTag c.image = true)
    (h3 : sts.length ≤ i) :
    containerStaleT fetch ps sts i c = (false, [c.image]) := by
  have hn : sts[i]? = none := List.getElem?_eq_none h3
  unfold containerStaleT
  rw [if_neg (by simp [h1]), if_neg (by simp [h2])]
  cases hf : fetch c.image ps with
  | error e => rfl
  | ok r => rw [hn]

/-- C9 witness: the Always-pull latest nginx container at index 0 of an
empty status array still causes its lookup (here against an unreachable
registry) and is skipped. -/
theorem C9_witness : containerStaleT fetchDown [] [] 0 nginxAlways = (false, ["nginx"]) := by
  exact C9_lookup_despite_missing_status fetchDown [] [] 0 nginxAlways
    (by decide) (by decide) (by decide)

/-- C6: GetRemoteDigest issues at most two manifest requests; a
transport failure on either request is an immediate error with no
further request; a first response other than 401 is final; a first 401
triggers exactly one token exchange and one re-issued request, whose
response is then final with no further retry (so a second 401 falls
through to the non-200 failure); the final-response handling succeeds
exactly when the status is 200 and the Docker-Content-Digest header is
non-empty, returning that header value, and any non-200 final status is
an error carrying the status and the URL. -/
theorem C6_getRemoteDigest_protocol
    (doReq : ManifestRequest → Except String HttpResponse)
    (fetchTok : String → Except String String)
    (jd : String → Option DockerConfigJSON) (bd : String → Option String)
    (image : String) (ps : List Secret) :
    (∀ e, doReq (firstManifestRequest jd bd image ps) = Except.error e →
        GetRemoteDigestT doReq fetchTok jd bd image ps =
          (Except.error ("HEAD " ++ manifestURL image ++ ": " ++ e),
           [firstManifestRequest jd bd image ps]))
    ∧ (∀ r, doReq (firstManifestRequest jd bd image ps) = Except.ok r →
        r.statusCode ≠ 401 →
        GetRemoteDigestT doReq fetchTok jd bd image ps =
          (finishResp (manifestURL image) r, [firstManifestRequest jd bd image ps]))
    ∧ (∀ r e, doReq (firstManifestRequest jd bd image ps) = Except.ok r →
        r.statusCode = 401 → fetchTok r.wwwAuthenticate = Except.error e →
        GetRemoteDigestT doReq fetchTok jd bd image ps =
          (Except.error ("fetching bearer token: " ++ e),
           [firstManifestRequest jd bd image ps]))
    ∧ (∀ r tok e, doReq (firstManifestRequest jd bd image ps) = Except.ok r →
        r.statusCode = 401 → fetchTok r.wwwAuthenticate = Except.ok tok →
        doReq (retryManifestRequest image tok) = Except.error e →
        GetRemoteDigestT doReq fetchTok jd bd image ps =
          (Except.error ("HEAD (authed) " ++ manifestURL image ++ ": " ++ e),
           [firstManifestRequest jd bd image ps, retryManifestRequest image tok]))
    ∧ (∀ r tok r2, doReq (firstManifestRequest jd bd image ps) = Except.ok r →
        r.statusCode = 401 → fetchTok r.wwwAuthenticate = Except.ok tok →
        doReq (retryManifestRequest image tok) = Except.ok r2 →
        GetRemoteDigestT doReq fetchTok jd bd image ps =
          (finishResp (manifestURL image) r2,
           [firstManifestRequest jd bd image ps, retryManifestRequest image tok]))
    ∧ (∀ r d, finishResp (manifestURL image) r = Except.ok d ↔
        (r.statusCode = 200 ∧ r.dockerContentDigest = d ∧ d ≠ ""))
    ∧ (∀ r, r.statusCode ≠ 200 → finishResp (manifestURL image) r =
        Except.error ("unexpected status " ++ toString r.statusCode ++ " from " ++ manifestURL image))
    ∧ (GetRemoteDigestT doReq fetchTok jd bd image ps).2.length ≤ 2 := by
  refine ⟨?_, ?_, ?_, ?_, ?_, ?_, ?_, ?_⟩
  · intro e h
    unfold GetRemoteDigestT
    rw [h]
  · intro r h hne
    unfold GetRemoteDigestT
    rw [h]
    simp only [if_neg hne]
  · intro r e h h401 htok
    unfold GetRemoteDigestT
    rw [h]
    simp only [if_pos h401]
    rw [htok]
  · intro r tok e h h401 htok h2
    unfold GetRemoteDigestT
    rw [h]
    simp only [if_pos h401, htok, h2]
  · intro r tok r2 h h401 htok h2
    unfold GetRemoteDigestT
    rw [h]
    simp only [if_pos h401, htok, h2]
  · intro r d
    unfold finishResp
    by_cases h1 : r.statusCode = 200
    · rw [if_neg (by simp [h1])]
      by_cases h2 : r.dockerContentDigest = ""
      · rw [if_pos h2]
        constructor
        · intro hcon; exact absurd hcon (by simp)
        · rintro ⟨_, hd, hne⟩
          exact absurd (hd.symm.trans h2) hne
      · rw [if_neg h2]
        constructor
        · intro hok
          have hd : r.dockerContentDigest = d := by
            simpa using hok
          exact ⟨h1, hd, by rw [← hd]; exact h2⟩
        · rintro ⟨_, hd, _⟩
          rw [hd]
    · rw [if_pos h1]
      constructor
      · intro hcon; exact absurd hcon (by simp)
      · rintro ⟨h200, _, _⟩
        exact absurd h200 h1
  · intro r h
    unfold finishResp
    rw [if_pos h]
  · cases hr : doReq (firstManifestRequest jd bd image ps) with
    | error e => simp [GetRemoteDigestT, hr]
    | ok r =>
      by_cases h401 : r.statusCode = 401
      · cases ht : fetchTok r.wwwAuthenticate with
        | error e => simp [GetRemoteDigestT, hr, h401, ht]
        | ok tok =>
          cases h2 : doReq (retryManifestRequest image tok) with
          | error e => simp [GetRemoteDigestT, hr, h401, ht, h2]
          | ok r2 => simp [GetRemoteDigestT, hr, h401, ht, h2]
      · simp [GetRemoteDigestT, hr, h401]

/-- C6 witness: against a transport that answers 401 anonymously and 200
with digest sha256:bbb when authorized, the flow makes exactly the first
request and the bearer retry and finishes on the authorized response. -/
theorem C6_witness :
    GetRemoteDigestT doReqAuthFlow fetchTokOK jdNone bdNone "nginx" [] =
      (finishResp (manifestURL "nginx") respOK,
       [firstManifestRequest jdNone bdNone "nginx" [], retryManifestRequest "nginx" "tkn"]) := by
  exact (C6_getRemoteDigest_protocol doReqAuthFlow fetchTokOK jdNone bdNone "nginx" []).2.2.2.2.1
    resp401 "tkn" respOK rfl (by decide) rfl rfl

/-- C7: setAuth considers only docker-config-json secrets, skips any
secret whose payload fails JSON decoding and any entry whose value fails
base64 decoding, matches hosts by substring containment of the registry
host in the auths key, requires a non-empty entry and a colon in the
decoded value which it splits at its first occurrence into user and
password, returns the first success in iteration order, and yields no
credential at all (anonymous access, not an error) exactly when every
secret yields nothing. -/
theorem C7_setAuth_resolution
    (jd : String → Option DockerConfigJSON) (bd : String → Option String)
    (registryHost : String) (secrets : List Secret) :
    (∀ u p : String, setAuth jd bd registryHost secrets = some (u, p) ↔
        ∃ (i : Nat) (s : Secret), secrets[i]? = some s ∧
          secretAuth jd bd registryHost s = some (u, p) ∧
          ∀ (j : Nat) (s2 : Secret), j < i → secrets[j]? = some s2 →
            secretAuth jd bd registryHost s2 = none)
    ∧ (setAuth jd bd registryHost secrets = none ↔
        ∀ s ∈ secrets, secretAuth jd bd registryHost s = none)
    ∧ (∀ s : Secret, s.type ≠ secretTypeDockerConfigJson →
        secretAuth jd bd registryHost s = none)
    ∧ (∀ (s : Secret) (d : String), s.data = some d → jd d = none →
        secretAuth jd bd registryHost s = none)
    ∧ (∀ (s : Secret) (d : String) (cfg : DockerConfigJSON),
        s.type = secretTypeDockerConfigJson → s.data = some d → jd d = some cfg →
        secretAuth jd bd registryHost s =
          cfg.auths.findSome? (fun he => entryAuth bd registryHost he.1 he.2))
    ∧ (∀ (h : String) (e : DockerAuthEntry), bd e.auth = none →
        entryAuth bd registryHost h e = none)
    ∧ (∀ (h : String) (e : DockerAuthEntry) (u p : String),
        entryAuth bd registryHost h e = some (u, p) ↔
          (containsSubstr h registryHost = true ∧ e.auth ≠ "" ∧
            ∃ dec : String, bd e.auth = some dec ∧
              ∃ (ul pl : List Char), splitFirst ':' dec.toList = some (ul, pl) ∧
                u = String.mk ul ∧ p = String.mk pl)) := by
  refine ⟨?_, ?_, ?_, ?_, ?_, ?_, ?_⟩
  · intro u p
    rw [setAuth]
    exact findSome?_eq_some_iff_first _ secrets (u, p)
  · rw [setAuth]
    exact List.findSome?_eq_none_iff
  · intro s h
    unfold secretAuth
    rw [if_pos h]
  · intro s d hd hjd
    unfold secretAuth
    by_cases ht : s.type ≠ secretTypeDockerConfigJson
    · rw [if_pos ht]
    · rw [if_neg ht]
      simp only [hd, hjd]
  · intro s d cfg ht hd hjd
    unfold secretAuth
    rw [if_neg (by simp [ht])]
    simp only [hd, hjd]
  · intro h e hbd
    unfold entryAuth
    by_cases hc : containsSubstr h registryHost = true ∧ e.auth ≠ ""
    · rw [if_pos hc]
      simp only [hbd]
    · rw [if_neg hc]
  · intro h e u p
    unfold entryAuth
    by_cases hc : containsSubstr h registryHost = true ∧ e.auth ≠ ""
    · rw [if_pos hc]
      cases hbd : bd e.auth with
      | none => simp [hc, hbd]
      | some dec =>
        cases hsp : splitFirst ':' dec.toList with
        | none =>
          have hspd : splitFirst ':' dec.data = none := hsp
          simp [hc, hspd, String.toList]
        | some up =>
          rcases up with ⟨ul, pl⟩
          have hspd : splitFirst ':' dec.data = some (ul, pl) := hsp
          simp only [hsp, hspd]
          constructor
          · intro hlhs
            injection hlhs with hlhs2
            rw [Prod.mk.injEq] at hlhs2
            obtain ⟨hu, hp⟩ := hlhs2
            exact ⟨hc.1, hc.2, dec, rfl, ul, pl, hsp, hu.symm, hp.symm⟩
          · rintro ⟨_, _, dec2, hdec2, ul2, pl2, hsp2, hu, hp⟩
            injection hdec2 with hdd
            subst hdd
            have h12 := hsp.symm.trans hsp2
            injection h12 with h13
            rw [Prod.mk.injEq] at h13
            obtain ⟨h1, h2⟩ := h13
            subst h1; subst h2
            rw [hu, hp]
    · rw [if_neg hc]
      constructor
      · intro hcon
        exact absurd hcon (by simp)
      · rintro ⟨h1, h2, _⟩
        exact absurd ⟨h1, h2⟩ hc

/-- C7 witness: a wrong-type secret yields nothing, and the resolution
over a wrong-type secret followed by a matching docker-config-json
secret returns the decoded user and password from the second. -/
theorem C7_witness :
    secretAuth jdFixed bdFixed "registry.example" secretWrongType = none
    ∧ setAuth jdFixed bdFixed "registry.example" [secretWrongType, secretGood] =
        some ("user", "pass") := by
  have t := C7_setAuth_resolution jdFixed bdFixed "registry.example" [secretWrongType, secretGood]
  refine ⟨t.2.2.1 secretWrongType (by decide), ?_⟩
  refine (t.1 "user" "pass").mpr ⟨1, secretGood, by decide, by decide, ?_⟩
  intro j s2 hj hjs
  have hj0 : j = 0 := by omega
  subst hj0
  simp only [List.getElem?_cons_zero, Option.some.injEq] at hjs
  subst hjs
  decide

/-- C8: a reconciliation pass isolates per-item failures: the pass
returns an error exactly for a failed top-level deployment listing;
with a successful listing it always returns an action list; a
deployment whose selector fails to parse, or whose pod listing fails,
contributes nothing while every other deployment in the same pass is
still processed; and a pod whose deletion call fails contributes a
failure record while the surrounding pods of the same deployment are
still evaluated and acted on. -/
theorem C8_reconcile_isolation
    (fetch : String → List Secret → Except String String)
    (api : K8sApi) (ns : String) :
    (∀ e, api.listDeployments ns = Except.error e →
        Reconcile fetch api ns = Except.error ("listing deployments: " ++ e))
    ∧ (∀ ds, api.listDeployments ns = Except.ok ds →
        Reconcile fetch api ns = Except.ok (workloadActions fetch api ds))
    ∧ (∀ (ds1 : List Deployment) (d : Deployment) (ds2 : List Deployment) (e : String),
        api.listDeployments ns = Except.ok (ds1 ++ d :: ds2) →
        api.parseSelector d.selector = Except.error e →
        Reconcile fetch api ns =
          Except.ok (workloadActions fetch api ds1 ++ workloadActions fetch api ds2))
    ∧ (∀ (ds1 : List Deployment) (d : Deployment) (ds2 : List Deployment) (sel e : String),
        api.listDeployments ns = Except.ok (ds1 ++ d :: ds2) →
        api.parseSelector d.selector = Except.ok sel →
        api.listPods d.ns sel = Except.error e →
        Reconcile fetch api ns =
          Except.ok (workloadActions fetch api ds1 ++ workloadActions fetch api ds2))
    ∧ (∀ (ps : List Secret) (pods1 : List Pod) (p : Pod) (pods2 : List Pod) (e : String),
        p.phase = podRunning → shouldDeletePod fetch p ps = true →
        api.deletePod p.ns p.name = Except.error e →
        (pods1 ++ p :: pods2).flatMap (processPod fetch api ps) =
          pods1.flatMap (processPod fetch api ps) ++
            Action.deleteFailed p.ns p.name e :: pods2.flatMap (processPod fetch api ps)) := by
  refine ⟨?_, ?_, ?_, ?_, ?_⟩
  · intro e h
    unfold Reconcile
    rw [h]
  · intro ds h
    unfold Reconcile
    rw [h]
  · intro ds1 d ds2 e h hsel
    unfold Reconcile
    simp only [h]
    rw [workloadActions_append,
      workloadActions_cons_of_empty fetch api d ds2
        (processDeployment_of_selector_error fetch api d e hsel)]
  · intro ds1 d ds2 sel e h hsel hpods
    unfold Reconcile
    simp only [h]
    rw [workloadActions_append,
      workloadActions_cons_of_empty fetch api d ds2
        (processDeployment_of_listPods_error fetch api d sel e hsel hpods)]
  · intro ps pods1 p pods2 e h1 h2 h3
    have hp : processPod fetch api ps p = [Action.deleteFailed p.ns p.name e] := by
      unfold processPod
      rw [if_neg (by simp [h1])]
      simp [h2, h3]
    rw [List.flatMap_append, List.flatMap_cons, hp]
    simp

/-- C8 witness: in a pass listing the failing-selector deployment
before the working one, the working deployment is still processed and
the whole pass succeeds. -/
theorem C8_witness :
    Reconcile fetchConstBBB api1 "" =
      Except.ok (workloadActions fetchConstBBB api1 [] ++
        workloadActions fetchConstBBB api1 [dGood]) := by
  exact (C8_reconcile_isolation fetchConstBBB api1 "").2.2.1 [] dBad [dGood] "bad selector"
    rfl rfl

/-- C10: parseWWWAuth splits on every comma, so a quoted scope value
containing a comma is truncated at that comma and the remainder is
processed as a separate candidate pair — yielding no entry when it has
no equals sign, and a genuine extra pair when it has one — and the
parsed realm, service and scope values are concatenated into the token
URL verbatim, with no percent-encoding. -/
theorem C10_challenge_comma_split :
    parseWWWAuth "Bearer realm=\"https://auth.example/token\",service=\"registry.example\",scope=\"repository:a/b:pull,push\"" =
      [("realm", "https://auth.example/token"), ("service", "registry.example"),
       ("scope", "repository:a/b:pull")]
    ∧ goMapGet (parseWWWAuth "Bearer realm=\"https://auth.example/token\",service=\"registry.example\",scope=\"repository:a/b:pull,push\"") "scope" =
        "repository:a/b:pull"
    ∧ parseWWWAuth "Bearer realm=\"https://auth.example/token\",scope=\"a,x=y\"" =
        [("realm", "https://auth.example/token"), ("scope", "a"), ("x", "y")]
    ∧ (∀ realm service scope : String, service ≠ "" → scope ≠ "" →
        buildTokenURL realm service scope =
          realm ++ "?" ++ "service=" ++ service ++ "&" ++ "scope=" ++ scope)
    ∧ buildTokenURL "https://auth.example/token" "registry.example" "repository:a/b:pull" =
        "https://auth.example/token?service=registry.example&scope=repository:a/b:pull" := by
  refine ⟨by decide, by decide, by decide, ?_, by decide⟩
  intro realm service scope hs hsc
  unfold buildTokenURL
  rw [if_pos hsc, if_pos hs, if_pos hs]

/-- C10 witness: the token URL for concrete non-empty service and scope
values is the verbatim concatenation. -/
theorem C10_witness :
    buildTokenURL "r" "s" "sc" = "r" ++ "?" ++ "service=" ++ "s" ++ "&" ++ "scope=" ++ "sc" := by
  exact C10_challenge_comma_split.2.2.2.1 "r" "s" "sc" (by decide) (by decide)

end KubeRestarter
